import Mathlib

/-!
Shallow embedding of the VeoFlow backend's video generation service
(`googleVideoService.js`): the in-memory job registry, the `generateVideo`
submission entry point, the background driving sequence
`processVideoGeneration` (submission, bounded polling, artifact extraction,
fallback placeholder), and the query surface `getVideoStatus` / `getVideoUrl`.

Modelling conventions:
 - JS `Map` and the filesystem's uploads directory are association lists
   keyed by strings; `Map.get`/`Map.set` and path-keyed file writes are
   `mget`/`mset`.
 - Nullable / possibly-absent JS values are `Option`; JS string truthiness
   (`null`, `undefined` and `""` are falsy) is `strTruthy`, and `a || b` on
   string-valued expressions is `jsOr`.
 - Network calls (auth token fetch, provider submit/poll, storage upload,
   signed-URL minting) are inputs supplied by an `Env` record; a call that
   throws is an `Except.error` (or `none` for the upload) carrying the message.
 - The driving sequence is a sequential program; its suspension points
   (`await` boundaries, where concurrent status queries can observe the job)
   are recorded as flagged snapshots in a trace: an entry `(true, j)` is the
   job state visible at an await, `(false, j)` records an intermediate
   in-tick mutation (not observable by other tasks).
 - `Math.floor((pollCount / 120) * 70)` agrees with Nat division
   `pollCount * 70 / 120` for every `pollCount ≤ 120` (the float rounding
   never crosses an integer boundary there), so the progress formula is
   embedded with Nat division.
-/

namespace VeoFlow

/-- JS string truthiness for nullable string fields: `null`/`undefined`
(`none`) and the empty string are falsy. -/
def strTruthy : Option String → Bool
  | none => false
  | some s => !(s == "")

/-- JS `a || b` on nullable string expressions. -/
def jsOr (a b : Option String) : Option String :=
  if strTruthy a then a else b

/-- `Map.get` on the association-list model of a JS `Map` keyed by strings. -/
def mget {α : Type} : List (String × α) → String → Option α
  | [], _ => none
  | (k', v) :: rest, k => if k' = k then some v else mget rest k

/-- `Map.set`: overwrite the binding if the key is present, else append it. -/
def mset {α : Type} : List (String × α) → String → α → List (String × α)
  | [], k, v => [(k, v)]
  | (k', v') :: rest, k, v =>
    if k' = k then (k, v) :: rest else (k', v') :: mset rest k v

/-- What the service writes into `uploads/videos/<jobId>.mp4`: either the
base64 video payload extracted from a provider response, or the fixed
minimal placeholder MP4 constant from `createPlaceholderVideo`. -/
inductive FileContent where
  | video (base64 : String)
  | placeholderMP4
deriving DecidableEq, Repr

/-- The options object accepted by `generateVideo` (fields the service
reads; `duration`, `aspectRatio`, `resolution` are forwarded to the
provider request, `quality` drives the time estimate, `projectId` the
upload namespace). -/
structure GenOptions where
  duration : Option Nat := none
  quality : Option String := none
  aspectRatio : Option String := none
  resolution : Option String := none
  projectId : Option String := none
deriving DecidableEq, Repr

/-- One entry of the in-memory job registry `this.jobs`. Fields that the
JS code leaves `undefined` until assigned are `Option` with default
`none`. -/
structure Job where
  status : String
  prompt : String
  options : GenOptions
  startTime : Int
  progress : Nat
  completedAt : Option Int := none
  videoPath : Option String := none
  videoUrl : Option String := none
  gcsFileName : Option String := none
  error : Option String := none
deriving DecidableEq, Repr

abbrev JobMap := List (String × Job)

abbrev Fs := List (String × FileContent)

/-- Mutable state touched by the service: the job registry and the uploads
directory of the local filesystem. -/
structure St where
  jobs : JobMap
  fs : Fs
deriving DecidableEq, Repr

/-- One element of a provider response's `videos` array. -/
structure VideoObj where
  bytesBase64Encoded : Option String := none
deriving DecidableEq, Repr

/-- One element of a provider response's legacy `predictions` array. -/
structure Prediction where
  video : Option String := none
  bytesBase64Encoded : Option String := none
deriving DecidableEq, Repr

/-- A terminal provider result: may carry the artifact under `videos`
or under `predictions` (either may be absent). -/
structure GenResult where
  videos : Option (List VideoObj) := none
  predictions : Option (List Prediction) := none
deriving DecidableEq, Repr

/-- The body of a `predictLongRunning` / `fetchPredictOperation` response. -/
structure OpResponse where
  done : Bool
  name : Option String := none
  response : Option GenResult := none
  error : Option String := none
deriving DecidableEq, Repr

/-- Outcomes of every external call a single driving-sequence run makes:
auth token fetches (initial and one per poll), the submission request, the
poll requests (indexed by poll count), the storage upload (at most one per
run), and the completion timestamp. `Except.error` / `none` model a thrown
exception carrying its message. -/
structure Env where
  getToken : Except String (Option String)
  pollToken : Nat → Except String Unit
  submit : Except String OpResponse
  poll : Nat → Except String OpResponse
  upload : Option (String × String)
  completedTime : Int

/-- Service construction state: `GOOGLE_APPLICATION_CREDENTIALS`. -/
structure ServiceConfig where
  keyFilePath : Option String
deriving DecidableEq, Repr

/-- The value of `times[quality]` as the program sees it: one of the three
own properties (a number of seconds), or — because `times` is a plain
object literal — a truthy non-numeric value inherited from
`Object.prototype` when the quality names one of its properties
(`constructor`, `toString`, `__proto__`, …). -/
inductive ProcessingTime where
  | seconds (n : Nat)
  | inherited (key : String)
deriving DecidableEq, Repr

/-- The property names the object literal `{fast, standard, high}` inherits
from `Object.prototype`; each resolves to a truthy value (a method, or
`Object.prototype` itself for the `__proto__` accessor), so `|| 60` does
not apply to them either. -/
def objectPrototypeKeys : List String :=
  ["constructor", "hasOwnProperty", "isPrototypeOf", "propertyIsEnumerable",
   "toLocaleString", "toString", "valueOf", "__defineGetter__",
   "__defineSetter__", "__lookupGetter__", "__lookupSetter__", "__proto__"]

/-- `getProcessingTime`: `times[quality] || 60`. Property access walks the
prototype chain: the own keys fast/standard/high give their numbers, a key
inherited from `Object.prototype` gives the inherited truthy value (so
`|| 60` short-circuits on it too), and only a quality resolving to
`undefined` falls back to 60. -/
def getProcessingTime (quality : String) : ProcessingTime :=
  if quality = "fast" then .seconds 30
  else if quality = "standard" then .seconds 60
  else if quality = "high" then .seconds 120
  else if quality ∈ objectPrototypeKeys then .inherited quality
  else .seconds 60

/-- The relative artifact path `uploads/videos/<jobId>.mp4` used both for
the file write and for `job.videoPath`. -/
def videoFilePath (jobId : String) : String :=
  "uploads/videos/" ++ jobId ++ ".mp4"

/-- The object `generateVideo` returns to its caller. -/
structure SubmitResult where
  status : String
  jobId : String
  estimatedProcessingTime : ProcessingTime
  videoPrompt : String
deriving DecidableEq, Repr

/-- The registry entry `generateVideo` stores before returning. -/
def freshJob (now : Int) (prompt : String) (opts : GenOptions) : Job :=
  { status := "processing", prompt := prompt, options := opts,
    startTime := now, progress := 0 }

/-- `generateVideo(prompt, options)`: fails synchronously when credentials
are absent (message wrapped by the surrounding catch); otherwise registers
the job and returns `status:"queued"` with the quality-tier estimate
(destructuring default `quality = 'standard'` applies only when the field
is absent). The background driving sequence it kicks off is modelled
separately as `processVideoGeneration`. -/
def generateVideo (svc : ServiceConfig) (now : Int) (newJobId : String)
    (prompt : String) (opts : GenOptions) (s : St) :
    Except String SubmitResult × St :=
  if strTruthy svc.keyFilePath = false then
    (.error "Video generation failed: Google Service Account Key not configured. Check GOOGLE_APPLICATION_CREDENTIALS in .env", s)
  else
    (.ok { status := "queued", jobId := newJobId,
           estimatedProcessingTime := getProcessingTime (opts.quality.getD "standard"),
           videoPrompt := prompt },
     { s with jobs := mset s.jobs newJobId (freshJob now prompt opts) })

/-- Progress shown during the polling phase:
`Math.min(20 + Math.floor((pollCount / maxPolls) * 70), 90)`. -/
def pollProgress (pollCount : Nat) : Nat :=
  min (20 + pollCount * 70 / 120) 90

/-- How the poll loop ended: a terminal result was found (`break`), the
bound was exhausted or the terminal response carried no body (`result`
stays unset, so the timeout error is thrown after the loop), or an
exception was thrown inside the loop. -/
inductive LoopExit where
  | found (g : GenResult)
  | noResult
  | thrown (msg : String)
deriving Repr

/-- Poll-loop outcome: exit kind, job state after the loop, number of
loop iterations performed (the final `pollCount`), and the trace of job
snapshots emitted during the loop. -/
structure LoopOut where
  exit : LoopExit
  j : Job
  polls : Nat
  tr : List (Bool × Job)

/-- The `while (!startResponse.data.done && pollCount < maxPolls)` loop:
wait 5 s, increment `pollCount`, refresh the token, POST
`fetchPredictOperation`; `break` on `done`, throw on an `error` field,
otherwise update `job.progress` and continue. The remaining iteration
budget `120 - pollCount` is the recursion fuel. -/
def pollLoop (env : Env) (j : Job) (pc : Nat) : Nat → LoopOut
  | 0 => ⟨.noResult, j, pc, []⟩
  | fuel + 1 =>
    match env.pollToken (pc + 1) with
    | .error e => ⟨.thrown e, j, pc + 1, [(true, j)]⟩
    | .ok _ =>
      match env.poll (pc + 1) with
      | .error e => ⟨.thrown e, j, pc + 1, [(true, j)]⟩
      | .ok r =>
        if r.done then
          match r.response with
          | some g => ⟨.found g, j, pc + 1, [(true, j)]⟩
          | none => ⟨.noResult, j, pc + 1, [(true, j)]⟩
        else if r.error.isSome then
          ⟨.thrown ("Veo 3 API error: " ++ r.error.getD ""), j, pc + 1, [(true, j)]⟩
        else
          let j' := { j with progress := pollProgress (pc + 1) }
          let rest := pollLoop env j' (pc + 1) fuel
          ⟨rest.exit, rest.j, rest.polls, (true, j) :: (false, j') :: rest.tr⟩

/-- Artifact extraction: `result.videos` (first element's
`bytesBase64Encoded`) is tried first, then `result.predictions` (first
element's `video || bytesBase64Encoded`); a falsy payload or an
unrecognized shape throws. On success the decoded bytes are written to
`uploads/videos/<jobId>.mp4`. -/
def extractAndSave (g : GenResult) (jobId : String) (fs : Fs) :
    Except String Fs :=
  match g.videos with
  | some (v :: _) =>
    if strTruthy v.bytesBase64Encoded then
      .ok (mset fs (videoFilePath jobId) (.video (v.bytesBase64Encoded.getD "")))
    else .error "No video content in videos array"
  | _ =>
    match g.predictions with
    | some (p :: _) =>
      if strTruthy (jsOr p.video p.bytesBase64Encoded) then
        .ok (mset fs (videoFilePath jobId) (.video ((jsOr p.video p.bytesBase64Encoded).getD "")))
      else .error "No video content in prediction"
    | _ => .error "No video content in response"

/-- Outcome of the `try` body of `processVideoGeneration`: either it ran to
the end, or it threw `msg`; both carry the job state, filesystem, poll
count and snapshot trace at that point (mutations performed before a throw
persist). -/
inductive TryOut where
  | ok (j : Job) (fs : Fs) (polls : Nat) (tr : List (Bool × Job))
  | err (msg : String) (j : Job) (fs : Fs) (polls : Nat) (tr : List (Bool × Job))

/-- Tail of the `try` body once a terminal provider result is in hand:
`job.progress = 95`, extraction and file write, then the completion block
(`progress = 100`, `status = 'completed'`, `completedAt`, `videoPath`)
and the GCS upload whose failure is swallowed (`videoUrl`/`gcsFileName`
are set from the upload result or nulled). -/
def finishJob (env : Env) (jobId : String) (j : Job) (g : GenResult)
    (fs : Fs) (polls : Nat) (tr : List (Bool × Job)) : TryOut :=
  let j95 := { j with progress := 95 }
  match extractAndSave g jobId fs with
  | .error m => .err m j95 fs polls (tr ++ [(false, j95)])
  | .ok fs' =>
    let jc : Job := { j95 with
      progress := 100
      status := "completed"
      completedAt := some env.completedTime
      videoPath := some (videoFilePath jobId) }
    match env.upload with
    | some (fn, url) =>
      let jf := { jc with gcsFileName := some fn, videoUrl := some url }
      .ok jf fs' polls (tr ++ [(false, j95), (false, jc), (true, jc), (false, jf)])
    | none =>
      let jf := { jc with videoUrl := none, gcsFileName := none }
      .ok jf fs' polls (tr ++ [(false, j95), (false, jc), (true, jc), (false, jf)])

/-- The `try` body of `processVideoGeneration`: progress 10 / status
`'processing'`, credential check, token fetch, progress 15, submission;
on an immediately-done response go straight to extraction (an absent
response body makes the later `result.videos` access throw), otherwise
progress 20 and the poll loop, with the timeout error thrown when the loop
ends without a result. -/
def runTry (env : Env) (svc : ServiceConfig) (jobId : String)
    (j0 : Job) (fs : Fs) : TryOut :=
  let j1 := { j0 with progress := 10, status := "processing" }
  if strTruthy svc.keyFilePath = false then
    .err "Google Service Account Key not configured" j1 fs 0 [(false, j1)]
  else
    match env.getToken with
    | .error e => .err e j1 fs 0 [(false, j1), (true, j1)]
    | .ok none => .err "Failed to get access token" j1 fs 0 [(false, j1), (true, j1)]
    | .ok (some _) =>
      let j2 := { j1 with progress := 15 }
      let tr2 : List (Bool × Job) := [(false, j1), (true, j1), (false, j2), (true, j2)]
      match env.submit with
      | .error e => .err e j2 fs 0 tr2
      | .ok sr =>
        if sr.done then
          match sr.response with
          | some g => finishJob env jobId j2 g fs 0 tr2
          | none =>
            .err "Cannot read properties of undefined (reading videos)"
              { j2 with progress := 95 } fs 0 (tr2 ++ [(false, { j2 with progress := 95 })])
        else
          let j3 := { j2 with progress := 20 }
          let lo := pollLoop env j3 0 120
          match lo.exit with
          | .thrown e => .err e lo.j fs lo.polls (tr2 ++ [(false, j3)] ++ lo.tr)
          | .noResult =>
            .err "Video generation timeout - operation took too long"
              lo.j fs lo.polls (tr2 ++ [(false, j3)] ++ lo.tr)
          | .found g => finishJob env jobId lo.j g fs lo.polls (tr2 ++ [(false, j3)] ++ lo.tr)

/-- What a whole background run produced besides the final state: the
message caught by the outer catch (if the try body threw), the number of
poll attempts, and the snapshot trace. -/
structure RunInfo where
  caught : Option String
  polls : Nat
  trace : List (Bool × Job)

/-- `processVideoGeneration(jobId, prompt, options)`: run the try body; on
a throw the catch marks the job `'failed'` with the error message, writes
the placeholder file, forces `progress = 100` / `status = 'completed'`,
and attempts the placeholder upload — on upload success `videoPath` is
nulled in favour of the GCS reference, on upload failure `videoPath` is
set to the local placeholder path. -/
def processVideoGeneration (env : Env) (svc : ServiceConfig)
    (jobId : String) (s : St) : St × RunInfo :=
  match mget s.jobs jobId with
  | none => (s, ⟨none, 0, []⟩)
  | some j0 =>
    match runTry env svc jobId j0 s.fs with
    | .ok j fs' polls tr => ({ jobs := mset s.jobs jobId j, fs := fs' }, ⟨none, polls, tr⟩)
    | .err msg j fs' polls tr =>
      let jf1 := { j with status := "failed", error := some msg }
      let fs1 := mset fs' (videoFilePath jobId) .placeholderMP4
      let jf2 := { jf1 with progress := 100, status := "completed" }
      match env.upload with
      | some (fn, url) =>
        let jf3 := { jf2 with gcsFileName := some fn, videoUrl := some url, videoPath := none }
        ({ jobs := mset s.jobs jobId jf3, fs := fs1 },
         ⟨some msg, polls, tr ++ [(false, jf1), (true, jf1), (false, jf2), (true, jf2), (false, jf3)]⟩)
      | none =>
        let jf3 := { jf2 with videoPath := some (videoFilePath jobId) }
        ({ jobs := mset s.jobs jobId jf3, fs := fs1 },
         ⟨some msg, polls, tr ++ [(false, jf1), (true, jf1), (false, jf2), (true, jf2), (false, jf3)]⟩)

/-- The payload `getVideoStatus` returns. -/
structure StatusData where
  jobId : String
  status : String
  progress : Nat
  estimatedTimeRemaining : Option Int
  error : Option String
  videoUrl : Option String
  localPath : Option String
deriving DecidableEq, Repr

/-- `getVideoStatus(jobId)`: throws on an unknown id; computes
`estimatedTimeRemaining = max(0, estimate − elapsed)` from the quality
tier (`none` models the NaN the arithmetic yields when the estimate is a
non-numeric prototype-chain hit); for a completed job with a truthy GCS
filename it mints a fresh signed URL and (on success) writes it back into
the stored job; otherwise it reuses a truthy stored URL. `sign` is the
storage signed-URL call (`Except.error` = it threw). -/
def getVideoStatus (sign : String → Except String String) (now : Int)
    (jobId : String) (s : St) : Except String StatusData × St :=
  match mget s.jobs jobId with
  | none => (.error "Failed to get video status: Job not found", s)
  | some job =>
    let estimatedTimeRemaining : Option Int :=
      match getProcessingTime ((jsOr job.options.quality (some "standard")).getD "standard") with
      | .seconds n => some (max 0 ((n : Int) - (now - job.startTime).fdiv 1000))
      | .inherited _ => none
    let mk : Option String → StatusData := fun vu =>
      { jobId := jobId, status := job.status, progress := job.progress,
        estimatedTimeRemaining := estimatedTimeRemaining, error := job.error,
        videoUrl := vu, localPath := job.videoPath }
    if job.status = "completed" ∧ strTruthy job.gcsFileName = true then
      match sign (job.gcsFileName.getD "") with
      | .ok url =>
        (.ok (mk (some url)),
         { s with jobs := mset s.jobs jobId { job with videoUrl := some url } })
      | .error _ => (.ok (mk none), s)
    else if strTruthy job.videoUrl = true then (.ok (mk job.videoUrl), s)
    else (.ok (mk none), s)

/-- `getVideoUrl(jobId)`: throws (wrapped) on an unknown id or a
non-completed job; with a truthy GCS filename it returns a fresh signed
URL, and a signing failure propagates as a wrapped error; otherwise it
returns `job.videoPath || job.videoUrl`. -/
def getVideoUrl (sign : String → Except String String) (jobId : String)
    (s : St) : Except String (Option String) :=
  match mget s.jobs jobId with
  | none => .error "Failed to retrieve video: Job not found"
  | some job =>
    if job.status ≠ "completed" then .error "Failed to retrieve video: Video not ready yet"
    else if strTruthy job.gcsFileName = true then
      match sign (job.gcsFileName.getD "") with
      | .ok url => .ok (some url)
      | .error e => .error ("Failed to retrieve video: " ++ e)
    else .ok (jsOr job.videoPath job.videoUrl)

/-! ## Generic lemmas about the registry / filesystem model -/

theorem mget_mset_self {α : Type} (m : List (String × α)) (k : String) (v : α) :
    mget (mset m k v) k = some v := by
  induction m with
  | nil => simp [mget, mset]
  | cons hd tl ih =>
    obtain ⟨k', v'⟩ := hd
    by_cases h : k' = k
    · simp [mget, mset, h]
    · simp [mget, mset, h, ih]

/-! ## Trace predicates -/

/-- At every observable (suspension) snapshot, progress is 100 exactly when
the status is `"completed"`. -/
def obsInv (tr : List (Bool × Job)) : Prop :=
  ∀ e ∈ tr, e.1 = true → (e.2.progress = 100 ↔ e.2.status = "completed")

/-- The progress values along a trace are non-decreasing. -/
def progMono (tr : List (Bool × Job)) : Prop :=
  List.Pairwise (fun a b => a.2.progress ≤ b.2.progress) tr

/-- Every progress value in the trace is at most `cap`. -/
def progLe (tr : List (Bool × Job)) (cap : Nat) : Prop :=
  ∀ e ∈ tr, e.2.progress ≤ cap

theorem obsInv_append {l₁ l₂ : List (Bool × Job)} :
    obsInv (l₁ ++ l₂) ↔ obsInv l₁ ∧ obsInv l₂ := by
  constructor
  · intro h
    exact ⟨fun e he => h e (List.mem_append_left _ he),
           fun e he => h e (List.mem_append_right _ he)⟩
  · rintro ⟨h₁, h₂⟩ e he hm
    rcases List.mem_append.mp he with h | h
    · exact h₁ e h hm
    · exact h₂ e h hm

theorem progLe_append {l₁ l₂ : List (Bool × Job)} {cap : Nat} :
    progLe (l₁ ++ l₂) cap ↔ progLe l₁ cap ∧ progLe l₂ cap := by
  constructor
  · intro h
    exact ⟨fun e he => h e (List.mem_append_left _ he),
           fun e he => h e (List.mem_append_right _ he)⟩
  · rintro ⟨h₁, h₂⟩ e he
    rcases List.mem_append.mp he with h | h
    · exact h₁ e h
    · exact h₂ e h

theorem progLe_mono {l : List (Bool × Job)} {a b : Nat} (h : progLe l a)
    (hab : a ≤ b) : progLe l b :=
  fun e he => le_trans (h e he) hab

theorem progMono_append {l₁ l₂ : List (Bool × Job)} (h₁ : progMono l₁)
    (h₂ : progMono l₂)
    (h : ∀ a ∈ l₁, ∀ b ∈ l₂, a.2.progress ≤ b.2.progress) :
    progMono (l₁ ++ l₂) :=
  List.pairwise_append.mpr ⟨h₁, h₂, h⟩

/-! ## Poll-loop lemmas -/

theorem pollProgress_le_90 (n : Nat) : pollProgress n ≤ 90 :=
  Nat.min_le_right _ _

theorem pollProgress_mono {a b : Nat} (h : a ≤ b) :
    pollProgress a ≤ pollProgress b := by
  unfold pollProgress
  gcongr

/-- The property of a poll-loop outcome that the claims need: the poll
count is bounded, the loop only changes `progress` (upward, staying ≤ 90),
every trace snapshot keeps the incoming status with a progress value
between the incoming and the final one, and the trace is
progress-monotone. -/
def LoopSpec (j : Job) (pc fuel : Nat) (lo : LoopOut) : Prop :=
  lo.polls ≤ pc + fuel
  ∧ lo.j.status = j.status
  ∧ j.progress ≤ lo.j.progress
  ∧ lo.j.progress ≤ 90
  ∧ (∀ e ∈ lo.tr, e.2.status = j.status ∧ j.progress ≤ e.2.progress ∧
      e.2.progress ≤ lo.j.progress)
  ∧ progMono lo.tr

theorem loopSpec_exit (j : Job) (pc fuel : Nat) (ex : LoopExit)
    (h90 : j.progress ≤ 90) (hpc : pc + 1 ≤ pc + fuel) :
    LoopSpec j pc fuel ⟨ex, j, pc + 1, [(true, j)]⟩ := by
  refine ⟨hpc, rfl, le_refl _, h90, ?_, ?_⟩
  · intro e he
    simp only [List.mem_singleton] at he
    subst he
    exact ⟨rfl, le_refl _, le_refl _⟩
  · simp [progMono]

theorem pollLoop_spec (env : Env) :
    ∀ (fuel pc : Nat) (j : Job), j.progress ≤ pollProgress (pc + 1) →
    LoopSpec j pc fuel (pollLoop env j pc fuel) := by
  intro fuel
  induction fuel with
  | zero =>
    intro pc j hp
    refine ⟨le_refl _, rfl, le_refl _, le_trans hp (pollProgress_le_90 _), ?_, ?_⟩
    · intro e he
      simp [pollLoop] at he
    · simp [pollLoop, progMono]
  | succ n ih =>
    intro pc j hp
    have hle90 : j.progress ≤ 90 := le_trans hp (pollProgress_le_90 _)
    have hpc : pc + 1 ≤ pc + (n + 1) := by omega
    cases htok : env.pollToken (pc + 1) with
    | error e =>
      have hres : pollLoop env j pc (n + 1) = ⟨.thrown e, j, pc + 1, [(true, j)]⟩ := by
        simp [pollLoop, htok]
      rw [hres]
      exact loopSpec_exit j pc (n + 1) _ hle90 hpc
    | ok u =>
      cases hpoll : env.poll (pc + 1) with
      | error e =>
        have hres : pollLoop env j pc (n + 1) = ⟨.thrown e, j, pc + 1, [(true, j)]⟩ := by
          simp [pollLoop, htok, hpoll]
        rw [hres]
        exact loopSpec_exit j pc (n + 1) _ hle90 hpc
      | ok r =>
        cases hdone : r.done with
        | true =>
          cases hresp : r.response with
          | some g =>
            have hres : pollLoop env j pc (n + 1) = ⟨.found g, j, pc + 1, [(true, j)]⟩ := by
              simp [pollLoop, htok, hpoll, hdone, hresp]
            rw [hres]
            exact loopSpec_exit j pc (n + 1) _ hle90 hpc
          | none =>
            have hres : pollLoop env j pc (n + 1) = ⟨.noResult, j, pc + 1, [(true, j)]⟩ := by
              simp [pollLoop, htok, hpoll, hdone, hresp]
            rw [hres]
            exact loopSpec_exit j pc (n + 1) _ hle90 hpc
        | false =>
          cases herr : r.error with
          | some msg =>
            have hres : pollLoop env j pc (n + 1) =
                ⟨.thrown ("Veo 3 API error: " ++ msg), j, pc + 1, [(true, j)]⟩ := by
              simp [pollLoop, htok, hpoll, hdone, herr]
            rw [hres]
            exact loopSpec_exit j pc (n + 1) _ hle90 hpc
          | none =>
            have hres : pollLoop env j pc (n + 1) =
                ⟨(pollLoop env { j with progress := pollProgress (pc + 1) } (pc + 1) n).exit,
                 (pollLoop env { j with progress := pollProgress (pc + 1) } (pc + 1) n).j,
                 (pollLoop env { j with progress := pollProgress (pc + 1) } (pc + 1) n).polls,
                 (true, j) :: (false, { j with progress := pollProgress (pc + 1) }) ::
                   (pollLoop env { j with progress := pollProgress (pc + 1) } (pc + 1) n).tr⟩ := by
              simp [pollLoop, htok, hpoll, hdone, herr]
            rw [hres]
            have hp' : ({ j with progress := pollProgress (pc + 1) } : Job).progress
                ≤ pollProgress (pc + 1 + 1) := pollProgress_mono (by omega)
            obtain ⟨ih1, ih2, ih3, ih4, ih5, ih6⟩ :=
              ih (pc + 1) { j with progress := pollProgress (pc + 1) } hp'
            refine ⟨?_, ih2, le_trans hp ih3, ih4, ?_, ?_⟩
            · show (pollLoop env { j with progress := pollProgress (pc + 1) } (pc + 1) n).polls
                ≤ pc + (n + 1)
              omega
            · intro x hx
              simp only [List.mem_cons] at hx
              rcases hx with hx | hx | hx
              · subst hx
                exact ⟨rfl, le_refl _, le_trans hp ih3⟩
              · subst hx
                exact ⟨rfl, hp, ih3⟩
              · obtain ⟨ha, hb, hc⟩ := ih5 x hx
                exact ⟨ha, le_trans hp hb, hc⟩
            · refine List.Pairwise.cons ?_ (List.Pairwise.cons ?_ ih6)
              · intro b hb
                simp only [List.mem_cons] at hb
                rcases hb with hb | hb
                · subst hb
                  exact hp
                · exact le_trans hp (ih5 b hb).2.1
              · intro b hb
                exact (ih5 b hb).2.1


/-! ## Try-body spec -/

theorem processing_ne_completed : ("processing" : String) ≠ "completed" := by decide

theorem failed_ne_completed : ("failed" : String) ≠ "completed" := by decide

/-- What every exit of the try body satisfies: on a normal exit the job is
completed at progress 100 with the local artifact path set; on a throw the
job is still `"processing"` with progress at most 95. Both bound the poll
count by 120 and give the observable/monotonicity trace facts. -/
def TrySpec (jobId : String) : TryOut → Prop
  | .ok j _ polls tr =>
      j.status = "completed" ∧ j.progress = 100
      ∧ j.videoPath = some (videoFilePath jobId)
      ∧ polls ≤ 120 ∧ obsInv tr ∧ progMono tr ∧ progLe tr 100
  | .err _ j _ polls tr =>
      j.status = "processing" ∧ j.progress ≤ 95
      ∧ polls ≤ 120 ∧ obsInv tr ∧ progMono tr ∧ progLe tr j.progress

theorem trySpec_ok (jobId : String) (j : Job) (fs : Fs) (polls : Nat)
    (tr : List (Bool × Job)) (h1 : j.status = "completed")
    (h2 : j.progress = 100) (h3 : j.videoPath = some (videoFilePath jobId))
    (h4 : polls ≤ 120) (h5 : obsInv tr) (h6 : progMono tr)
    (h7 : progLe tr 100) : TrySpec jobId (.ok j fs polls tr) :=
  ⟨h1, h2, h3, h4, h5, h6, h7⟩

theorem trySpec_err (jobId msg : String) (j : Job) (fs : Fs) (polls : Nat)
    (tr : List (Bool × Job)) (h1 : j.status = "processing")
    (h2 : j.progress ≤ 95) (h3 : polls ≤ 120) (h4 : obsInv tr)
    (h5 : progMono tr) (h6 : progLe tr j.progress) :
    TrySpec jobId (.err msg j fs polls tr) :=
  ⟨h1, h2, h3, h4, h5, h6⟩

theorem finishJob_spec (env : Env) (jobId : String) (j : Job) (g : GenResult)
    (fs : Fs) (polls : Nat) (tr : List (Bool × Job))
    (hst : j.status = "processing") (hpr : j.progress ≤ 90) (hpolls : polls ≤ 120)
    (hobs : obsInv tr) (hmono : progMono tr) (hle : progLe tr j.progress) :
    TrySpec jobId (finishJob env jobId j g fs polls tr) := by
  have hsuffLe : ∀ a ∈ tr, a.2.progress ≤ 95 :=
    fun a ha => le_trans (hle a ha) (le_trans hpr (by omega))
  unfold finishJob
  cases hex : extractAndSave g jobId fs with
  | error m =>
    refine trySpec_err jobId m _ fs polls _ hst (le_refl 95) hpolls ?_ ?_ ?_
    · refine obsInv_append.mpr ⟨hobs, ?_⟩
      intro e he hm
      simp only [List.mem_singleton] at he
      subst he
      simp at hm
    · refine progMono_append hmono (List.pairwise_singleton _ _) ?_
      intro a ha b hb
      simp only [List.mem_singleton] at hb
      subst hb
      exact hsuffLe a ha
    · refine progLe_append.mpr ⟨progLe_mono hle (le_trans hpr (by omega : (90:Nat) ≤ 95)), ?_⟩
      intro e he
      simp only [List.mem_singleton] at he
      subst he
      exact le_refl 95
  | ok fs' =>
    cases hu : env.upload with
    | some p =>
      obtain ⟨fn, url⟩ := p
      refine trySpec_ok jobId _ fs' polls _ rfl rfl rfl hpolls ?_ ?_ ?_
      · refine obsInv_append.mpr ⟨hobs, ?_⟩
        intro e he hm
        simp only [List.mem_cons, List.not_mem_nil, or_false] at he
        rcases he with rfl | rfl | rfl | rfl
        · simp at hm
        · simp at hm
        · exact iff_of_true rfl rfl
        · simp at hm
      · refine progMono_append hmono ?_ ?_
        · simp [progMono]
        · intro a ha b hb
          simp only [List.mem_cons, List.not_mem_nil, or_false] at hb
          rcases hb with rfl | rfl | rfl | rfl
          · exact hsuffLe a ha
          · exact le_trans (hsuffLe a ha) (by omega : (95:Nat) ≤ 100)
          · exact le_trans (hsuffLe a ha) (by omega : (95:Nat) ≤ 100)
          · exact le_trans (hsuffLe a ha) (by omega : (95:Nat) ≤ 100)
      · refine progLe_append.mpr ⟨progLe_mono hle (le_trans hpr (by omega : (90:Nat) ≤ 100)), ?_⟩
        intro e he
        simp only [List.mem_cons, List.not_mem_nil, or_false] at he
        rcases he with rfl | rfl | rfl | rfl
        · show (95 : Nat) ≤ 100
          omega
        · exact le_refl 100
        · exact le_refl 100
        · exact le_refl 100
    | none =>
      refine trySpec_ok jobId _ fs' polls _ rfl rfl rfl hpolls ?_ ?_ ?_
      · refine obsInv_append.mpr ⟨hobs, ?_⟩
        intro e he hm
        simp only [List.mem_cons, List.not_mem_nil, or_false] at he
        rcases he with rfl | rfl | rfl | rfl
        · simp at hm
        · simp at hm
        · exact iff_of_true rfl rfl
        · simp at hm
      · refine progMono_append hmono ?_ ?_
        · simp [progMono]
        · intro a ha b hb
          simp only [List.mem_cons, List.not_mem_nil, or_false] at hb
          rcases hb with rfl | rfl | rfl | rfl
          · exact hsuffLe a ha
          · exact le_trans (hsuffLe a ha) (by omega : (95:Nat) ≤ 100)
          · exact le_trans (hsuffLe a ha) (by omega : (95:Nat) ≤ 100)
          · exact le_trans (hsuffLe a ha) (by omega : (95:Nat) ≤ 100)
      · refine progLe_append.mpr ⟨progLe_mono hle (le_trans hpr (by omega : (90:Nat) ≤ 100)), ?_⟩
        intro e he
        simp only [List.mem_cons, List.not_mem_nil, or_false] at he
        rcases he with rfl | rfl | rfl | rfl
        · show (95 : Nat) ≤ 100
          omega
        · exact le_refl 100
        · exact le_refl 100
        · exact le_refl 100


theorem runTry_spec (env : Env) (svc : ServiceConfig) (jobId : String)
    (j0 : Job) (fs : Fs) : TrySpec jobId (runTry env svc jobId j0 fs) := by
  by_cases hk : strTruthy svc.keyFilePath = false
  · have hres : runTry env svc jobId j0 fs =
        .err "Google Service Account Key not configured"
          { j0 with progress := 10, status := "processing" } fs 0
          [(false, { j0 with progress := 10, status := "processing" })] := by
      simp [runTry, hk]
    rw [hres]
    exact trySpec_err _ _ _ _ _ _ rfl (by simp) (by simp) (by simp [obsInv])
      (by simp [progMono]) (by simp [progLe])
  · cases htok : env.getToken with
    | error e =>
      have hres : runTry env svc jobId j0 fs =
          .err e { j0 with progress := 10, status := "processing" } fs 0
            [(false, { j0 with progress := 10, status := "processing" }),
             (true, { j0 with progress := 10, status := "processing" })] := by
        simp [runTry, hk, htok]
      rw [hres]
      exact trySpec_err _ _ _ _ _ _ rfl (by simp) (by simp) (by simp [obsInv])
        (by simp [progMono]) (by simp [progLe])
    | ok tok =>
      cases tok with
      | none =>
        have hres : runTry env svc jobId j0 fs =
            .err "Failed to get access token"
              { j0 with progress := 10, status := "processing" } fs 0
              [(false, { j0 with progress := 10, status := "processing" }),
               (true, { j0 with progress := 10, status := "processing" })] := by
          simp [runTry, hk, htok]
        rw [hres]
        exact trySpec_err _ _ _ _ _ _ rfl (by simp) (by simp) (by simp [obsInv])
          (by simp [progMono]) (by simp [progLe])
      | some t =>
        cases hsub : env.submit with
        | error e =>
          have hres : runTry env svc jobId j0 fs =
              .err e { j0 with progress := 15, status := "processing" } fs 0
                [(false, { j0 with progress := 10, status := "processing" }),
                 (true, { j0 with progress := 10, status := "processing" }),
                 (false, { j0 with progress := 15, status := "processing" }),
                 (true, { j0 with progress := 15, status := "processing" })] := by
            simp [runTry, hk, htok, hsub]
          rw [hres]
          exact trySpec_err _ _ _ _ _ _ rfl (by simp) (by simp) (by simp [obsInv])
            (by simp [progMono]) (by simp [progLe])
        | ok sr =>
          cases hdone : sr.done with
          | true =>
            cases hresp : sr.response with
            | some g =>
              have hres : runTry env svc jobId j0 fs =
                  finishJob env jobId { j0 with progress := 15, status := "processing" } g fs 0
                    [(false, { j0 with progress := 10, status := "processing" }),
                     (true, { j0 with progress := 10, status := "processing" }),
                     (false, { j0 with progress := 15, status := "processing" }),
                     (true, { j0 with progress := 15, status := "processing" })] := by
                simp [runTry, hk, htok, hsub, hdone, hresp]
              rw [hres]
              exact finishJob_spec env jobId _ g fs 0 _ rfl (by simp) (by simp)
                (by simp [obsInv]) (by simp [progMono]) (by simp [progLe])
            | none =>
              have hres : runTry env svc jobId j0 fs =
                  .err "Cannot read properties of undefined (reading videos)"
                    { j0 with progress := 95, status := "processing" } fs 0
                    [(false, { j0 with progress := 10, status := "processing" }),
                     (true, { j0 with progress := 10, status := "processing" }),
                     (false, { j0 with progress := 15, status := "processing" }),
                     (true, { j0 with progress := 15, status := "processing" }),
                     (false, { j0 with progress := 95, status := "processing" })] := by
                simp [runTry, hk, htok, hsub, hdone, hresp]
              rw [hres]
              exact trySpec_err _ _ _ _ _ _ rfl (by simp) (by simp) (by simp [obsInv])
                (by simp [progMono]) (by simp [progLe])
          | false =>
            obtain ⟨l1, l2, l3, l4, l5, l6⟩ :=
              pollLoop_spec env 120 0 { j0 with progress := 20, status := "processing" }
                (by decide : (20:Nat) ≤ pollProgress (0 + 1))
            have hObs : obsInv
                ([(false, { j0 with progress := 10, status := "processing" }),
                  (true, { j0 with progress := 10, status := "processing" }),
                  (false, { j0 with progress := 15, status := "processing" }),
                  (true, { j0 with progress := 15, status := "processing" }),
                  (false, { j0 with progress := 20, status := "processing" })]
                 ++ (pollLoop env { j0 with progress := 20, status := "processing" } 0 120).tr) := by
              refine obsInv_append.mpr ⟨by simp [obsInv], ?_⟩
              intro x hx hm
              obtain ⟨ha, hb, hc⟩ := l5 x hx
              refine iff_of_false ?_ ?_
              · have h90 := le_trans hc l4
                omega
              · rw [ha]
                simp
            have hMono : progMono
                ([(false, { j0 with progress := 10, status := "processing" }),
                  (true, { j0 with progress := 10, status := "processing" }),
                  (false, { j0 with progress := 15, status := "processing" }),
                  (true, { j0 with progress := 15, status := "processing" }),
                  (false, { j0 with progress := 20, status := "processing" })]
                 ++ (pollLoop env { j0 with progress := 20, status := "processing" } 0 120).tr) := by
              refine progMono_append (by simp [progMono]) l6 ?_
              intro a ha b hb
              have hblow := (l5 b hb).2.1
              simp only [List.mem_cons, List.not_mem_nil, or_false] at ha
              rcases ha with rfl | rfl | rfl | rfl | rfl
              · exact le_trans (by decide : (10:Nat) ≤ 20) hblow
              · exact le_trans (by decide : (10:Nat) ≤ 20) hblow
              · exact le_trans (by decide : (15:Nat) ≤ 20) hblow
              · exact le_trans (by decide : (15:Nat) ≤ 20) hblow
              · exact hblow
            have hLe : progLe
                ([(false, { j0 with progress := 10, status := "processing" }),
                  (true, { j0 with progress := 10, status := "processing" }),
                  (false, { j0 with progress := 15, status := "processing" }),
                  (true, { j0 with progress := 15, status := "processing" }),
                  (false, { j0 with progress := 20, status := "processing" })]
                 ++ (pollLoop env { j0 with progress := 20, status := "processing" } 0 120).tr)
                (pollLoop env { j0 with progress := 20, status := "processing" } 0 120).j.progress := by
              refine progLe_append.mpr ⟨?_, ?_⟩
              · intro x hx
                simp only [List.mem_cons, List.not_mem_nil, or_false] at hx
                rcases hx with rfl | rfl | rfl | rfl | rfl
                · exact le_trans (by decide : (10:Nat) ≤ 20) l3
                · exact le_trans (by decide : (10:Nat) ≤ 20) l3
                · exact le_trans (by decide : (15:Nat) ≤ 20) l3
                · exact le_trans (by decide : (15:Nat) ≤ 20) l3
                · exact l3
              · intro x hx
                exact (l5 x hx).2.2
            cases hexit : (pollLoop env { j0 with progress := 20, status := "processing" } 0 120).exit with
            | thrown e =>
              have hres : runTry env svc jobId j0 fs =
                  .err e (pollLoop env { j0 with progress := 20, status := "processing" } 0 120).j fs
                    (pollLoop env { j0 with progress := 20, status := "processing" } 0 120).polls
                    ([(false, { j0 with progress := 10, status := "processing" }),
                      (true, { j0 with progress := 10, status := "processing" }),
                      (false, { j0 with progress := 15, status := "processing" }),
                      (true, { j0 with progress := 15, status := "processing" }),
                      (false, { j0 with progress := 20, status := "processing" })]
                     ++ (pollLoop env { j0 with progress := 20, status := "processing" } 0 120).tr) := by
                simp [runTry, hk, htok, hsub, hdone, hexit]
              rw [hres]
              exact trySpec_err _ _ _ _ _ _ l2 (le_trans l4 (by decide)) (by omega) hObs hMono hLe
            | noResult =>
              have hres : runTry env svc jobId j0 fs =
                  .err "Video generation timeout - operation took too long"
                    (pollLoop env { j0 with progress := 20, status := "processing" } 0 120).j fs
                    (pollLoop env { j0 with progress := 20, status := "processing" } 0 120).polls
                    ([(false, { j0 with progress := 10, status := "processing" }),
                      (true, { j0 with progress := 10, status := "processing" }),
                      (false, { j0 with progress := 15, status := "processing" }),
                      (true, { j0 with progress := 15, status := "processing" }),
                      (false, { j0 with progress := 20, status := "processing" })]
                     ++ (pollLoop env { j0 with progress := 20, status := "processing" } 0 120).tr) := by
                simp [runTry, hk, htok, hsub, hdone, hexit]
              rw [hres]
              exact trySpec_err _ _ _ _ _ _ l2 (le_trans l4 (by decide)) (by omega) hObs hMono hLe
            | found g =>
              have hres : runTry env svc jobId j0 fs =
                  finishJob env jobId
                    (pollLoop env { j0 with progress := 20, status := "processing" } 0 120).j g fs
                    (pollLoop env { j0 with progress := 20, status := "processing" } 0 120).polls
                    ([(false, { j0 with progress := 10, status := "processing" }),
                      (true, { j0 with progress := 10, status := "processing" }),
                      (false, { j0 with progress := 15, status := "processing" }),
                      (true, { j0 with progress := 15, status := "processing" }),
                      (false, { j0 with progress := 20, status := "processing" })]
                     ++ (pollLoop env { j0 with progress := 20, status := "processing" } 0 120).tr) := by
                simp [runTry, hk, htok, hsub, hdone, hexit]
              rw [hres]
              exact finishJob_spec env jobId _ g fs _ _ l2 l4 (by omega) hObs hMono hLe


theorem progMono_five {e1 e2 e3 e4 e5 : Bool × Job}
    (h12 : e1.2.progress ≤ e2.2.progress) (h23 : e2.2.progress ≤ e3.2.progress)
    (h34 : e3.2.progress ≤ e4.2.progress) (h45 : e4.2.progress ≤ e5.2.progress) :
    progMono [e1, e2, e3, e4, e5] := by
  refine List.Pairwise.cons ?_ (List.Pairwise.cons ?_ (List.Pairwise.cons ?_
    (List.Pairwise.cons ?_ (List.pairwise_singleton _ _))))
  · intro b hb
    simp only [List.mem_cons, List.not_mem_nil, or_false] at hb
    rcases hb with rfl | rfl | rfl | rfl
    · exact h12
    · exact le_trans h12 h23
    · exact le_trans h12 (le_trans h23 h34)
    · exact le_trans h12 (le_trans h23 (le_trans h34 h45))
  · intro b hb
    simp only [List.mem_cons, List.not_mem_nil, or_false] at hb
    rcases hb with rfl | rfl | rfl
    · exact h23
    · exact le_trans h23 h34
    · exact le_trans h23 (le_trans h34 h45)
  · intro b hb
    simp only [List.mem_cons, List.not_mem_nil, or_false] at hb
    rcases hb with rfl | rfl
    · exact h34
    · exact le_trans h34 h45
  · intro b hb
    simp only [List.mem_singleton] at hb
    subst hb
    exact h45

/-- Everything a full background run guarantees: the job ends `"completed"`
at progress 100 with an artifact reference (local path or GCS key); at most
120 polls happen; when the try body threw, the caught message is preserved
in `error`, `videoPath` reflects the fallback-upload outcome, and the
placeholder file is on disk; when it did not throw, `videoPath` holds the
artifact path; and the snapshot trace satisfies the observable invariant,
monotonicity, and the 100 cap. -/
theorem processVideoGeneration_spec (env : Env) (svc : ServiceConfig)
    (jobId : String) (s : St) (j0 : Job)
    (hj : mget s.jobs jobId = some j0) :
    ∃ jf,
      mget (processVideoGeneration env svc jobId s).1.jobs jobId = some jf
      ∧ jf.status = "completed"
      ∧ jf.progress = 100
      ∧ (jf.videoPath.isSome ∨ jf.gcsFileName.isSome)
      ∧ (processVideoGeneration env svc jobId s).2.polls ≤ 120
      ∧ (∀ e, (processVideoGeneration env svc jobId s).2.caught = some e →
          jf.error = some e
          ∧ jf.videoPath = (if env.upload.isSome then none else some (videoFilePath jobId))
          ∧ mget (processVideoGeneration env svc jobId s).1.fs (videoFilePath jobId)
              = some FileContent.placeholderMP4)
      ∧ ((processVideoGeneration env svc jobId s).2.caught = none →
          jf.videoPath = some (videoFilePath jobId))
      ∧ obsInv (processVideoGeneration env svc jobId s).2.trace
      ∧ progMono (processVideoGeneration env svc jobId s).2.trace
      ∧ progLe (processVideoGeneration env svc jobId s).2.trace 100 := by
  have hts := runTry_spec env svc jobId j0 s.fs
  cases hr : runTry env svc jobId j0 s.fs with
  | ok j fs' polls tr =>
    rw [hr] at hts
    obtain ⟨h1, h2, h3, h4, h5, h6, h7⟩ := hts
    have hres : processVideoGeneration env svc jobId s =
        ({ jobs := mset s.jobs jobId j, fs := fs' }, ⟨none, polls, tr⟩) := by
      simp [processVideoGeneration, hj, hr]
    rw [hres]
    refine ⟨j, mget_mset_self _ _ _, h1, h2, ?_, h4, ?_, ?_, h5, h6, h7⟩
    · left
      rw [h3]
      rfl
    · intro e he
      simp at he
    · intro _
      exact h3
  | err msg j fs' polls tr =>
    rw [hr] at hts
    obtain ⟨h1, h2, h3, h4, h5, h6⟩ := hts
    have h95to100 : j.progress ≤ 100 := le_trans h2 (by decide)
    cases hu : env.upload with
    | some p =>
      obtain ⟨fn, url⟩ := p
      have hres : processVideoGeneration env svc jobId s =
          ({ jobs := mset s.jobs jobId
               { j with
                 status := "completed"
                 progress := 100
                 error := some msg
                 gcsFileName := some fn
                 videoUrl := some url
                 videoPath := none },
             fs := mset fs' (videoFilePath jobId) .placeholderMP4 },
           ⟨some msg, polls,
            tr ++ [(false, { j with status := "failed", error := some msg }),
                   (true, { j with status := "failed", error := some msg }),
                   (false, { j with status := "completed", progress := 100, error := some msg }),
                   (true, { j with status := "completed", progress := 100, error := some msg }),
                   (false, { j with
                             status := "completed"
                             progress := 100
                             error := some msg
                             gcsFileName := some fn
                             videoUrl := some url
                             videoPath := none })]⟩) := by
        simp [processVideoGeneration, hj, hr, hu]
      rw [hres]
      refine ⟨_, mget_mset_self _ _ _, rfl, rfl, by right; rfl, h3, ?_, ?_, ?_, ?_, ?_⟩
      · intro e he
        simp only [Option.some.injEq] at he
        subst he
        exact ⟨rfl, by simp, mget_mset_self _ _ _⟩
      · intro h
        simp at h
      · refine obsInv_append.mpr ⟨h4, ?_⟩
        intro x hx hm
        simp only [List.mem_cons, List.not_mem_nil, or_false] at hx
        rcases hx with rfl | rfl | rfl | rfl | rfl
        · simp at hm
        · exact iff_of_false (by omega : ¬ j.progress = 100) (by simp)
        · simp at hm
        · exact iff_of_true rfl rfl
        · simp at hm
      · refine progMono_append h5 ?_ ?_
        · exact progMono_five (le_refl _) h95to100 (le_refl 100) (le_refl 100)
        · intro a ha b hb
          have haj := h6 a ha
          simp only [List.mem_cons, List.not_mem_nil, or_false] at hb
          rcases hb with rfl | rfl | rfl | rfl | rfl
          · exact haj
          · exact haj
          · exact le_trans haj h95to100
          · exact le_trans haj h95to100
          · exact le_trans haj h95to100
      · refine progLe_append.mpr ⟨progLe_mono h6 h95to100, ?_⟩
        intro x hx
        simp only [List.mem_cons, List.not_mem_nil, or_false] at hx
        rcases hx with rfl | rfl | rfl | rfl | rfl
        · exact h95to100
        · exact h95to100
        · exact le_refl 100
        · exact le_refl 100
        · exact le_refl 100
    | none =>
      have hres : processVideoGeneration env svc jobId s =
          ({ jobs := mset s.jobs jobId
               { j with
                 status := "completed"
                 progress := 100
                 error := some msg
                 videoPath := some (videoFilePath jobId) },
             fs := mset fs' (videoFilePath jobId) .placeholderMP4 },
           ⟨some msg, polls,
            tr ++ [(false, { j with status := "failed", error := some msg }),
                   (true, { j with status := "failed", error := some msg }),
                   (false, { j with status := "completed", progress := 100, error := some msg }),
                   (true, { j with status := "completed", progress := 100, error := some msg }),
                   (false, { j with
                             status := "completed"
                             progress := 100
                             error := some msg
                             videoPath := some (videoFilePath jobId) })]⟩) := by
        simp [processVideoGeneration, hj, hr, hu]
      rw [hres]
      refine ⟨_, mget_mset_self _ _ _, rfl, rfl, by left; rfl, h3, ?_, ?_, ?_, ?_, ?_⟩
      · intro e he
        simp only [Option.some.injEq] at he
        subst he
        exact ⟨rfl, by simp, mget_mset_self _ _ _⟩
      · intro h
        simp at h
      · refine obsInv_append.mpr ⟨h4, ?_⟩
        intro x hx hm
        simp only [List.mem_cons, List.not_mem_nil, or_false] at hx
        rcases hx with rfl | rfl | rfl | rfl | rfl
        · simp at hm
        · exact iff_of_false (by omega : ¬ j.progress = 100) (by simp)
        · simp at hm
        · exact iff_of_true rfl rfl
        · simp at hm
      · refine progMono_append h5 ?_ ?_
        · exact progMono_five (le_refl _) h95to100 (le_refl 100) (le_refl 100)
        · intro a ha b hb
          have haj := h6 a ha
          simp only [List.mem_cons, List.not_mem_nil, or_false] at hb
          rcases hb with rfl | rfl | rfl | rfl | rfl
          · exact haj
          · exact haj
          · exact le_trans haj h95to100
          · exact le_trans haj h95to100
          · exact le_trans haj h95to100
      · refine progLe_append.mpr ⟨progLe_mono h6 h95to100, ?_⟩
        intro x hx
        simp only [List.mem_cons, List.not_mem_nil, or_false] at hx
        rcases hx with rfl | rfl | rfl | rfl | rfl
        · exact h95to100
        · exact h95to100
        · exact le_refl 100
        · exact le_refl 100
        · exact le_refl 100


/-! ## Concrete inputs used by witnesses and counterexamples -/

def wSvc : ServiceConfig := { keyFilePath := some "/secrets/sa.json" }

def wEnvFail : Env :=
  { getToken := .ok (some "tok"), pollToken := fun _ => .ok (),
    submit := .error "network down", poll := fun _ => .ok { done := false },
    upload := none, completedTime := 0 }

def wEnvNeverDone : Env :=
  { getToken := .ok (some "tok"), pollToken := fun _ => .ok (),
    submit := .ok { done := false, name := some "op/veo/1" },
    poll := fun _ => .ok { done := false },
    upload := none, completedTime := 0 }

def cexEnvUpload : Env :=
  { getToken := .ok (some "tok"), pollToken := fun _ => .ok (),
    submit := .error "provider rejected the request",
    poll := fun _ => .ok { done := false },
    upload := some ("videos/default/job1.mp4", "https://storage.example/signed"),
    completedTime := 0 }

def wSt : St := { jobs := [("job1", freshJob 0 "a cat" {})], fs := [] }

def cexStatusJob : Job :=
  { freshJob 0 "a cat" {} with
    status := "completed"
    gcsFileName := some "videos/default/job1.mp4"
    videoUrl := some "https://old.example/url" }

def cexStatusSt : St := { jobs := [("job1", cexStatusJob)], fs := [] }

def cexUrlJob : Job :=
  { freshJob 0 "a cat" {} with
    status := "completed"
    gcsFileName := some "videos/default/job1.mp4"
    videoPath := some (videoFilePath "job1") }

def cexUrlSt : St := { jobs := [("job1", cexUrlJob)], fs := [] }

/-! ## C1 -/

/-- C1: for every job whose background driving sequence fails for any
reason (the outer catch fires with message `e`), the engine writes the
placeholder artifact at the job's artifact path and the job ends with
status `"completed"`, progress 100, and the original failure message still
recorded (non-null) in `error`. -/
theorem fallback_guarantee (env : Env) (svc : ServiceConfig) (jobId : String)
    (s : St) (j0 : Job) (e : String)
    (hj : mget s.jobs jobId = some j0)
    (hfail : (processVideoGeneration env svc jobId s).2.caught = some e) :
    (mget (processVideoGeneration env svc jobId s).1.jobs jobId).map
        (fun j => (j.status, j.progress, j.error)) = some ("completed", 100, some e)
    ∧ mget (processVideoGeneration env svc jobId s).1.fs (videoFilePath jobId)
        = some FileContent.placeholderMP4 := by
  obtain ⟨jf, hA, hB, hC, _, _, hF, _, _, _, _⟩ :=
    processVideoGeneration_spec env svc jobId s j0 hj
  obtain ⟨he, _, hph⟩ := hF e hfail
  rw [hA]
  exact ⟨by simp [hB, hC, he], hph⟩

theorem fallback_guarantee_witness :
    (mget (processVideoGeneration wEnvFail wSvc "job1" wSt).1.jobs "job1").map
        (fun j => (j.status, j.progress, j.error)) = some ("completed", 100, some "network down")
    ∧ mget (processVideoGeneration wEnvFail wSvc "job1" wSt).1.fs (videoFilePath "job1")
        = some FileContent.placeholderMP4 :=
  fallback_guarantee wEnvFail wSvc "job1" wSt (freshJob 0 "a cat" {}) "network down"
    (by decide) (by decide)

/-! ## C2 -/

/-- C2: driven against a provider whose poll response never reports done,
the sequence performs at most 120 poll attempts and the job still reaches
the terminal completed state (via the timeout-failure/fallback path); it
never polls indefinitely. -/
theorem bounded_polling (env : Env) (svc : ServiceConfig) (jobId : String)
    (s : St) (j0 : Job)
    (hj : mget s.jobs jobId = some j0)
    (_hnd : ∀ n r, env.poll n = Except.ok r → r.done = false) :
    (processVideoGeneration env svc jobId s).2.polls ≤ 120
    ∧ (mget (processVideoGeneration env svc jobId s).1.jobs jobId).map Job.status
        = some "completed" := by
  obtain ⟨jf, hA, hB, _, _, hE, _, _, _, _, _⟩ :=
    processVideoGeneration_spec env svc jobId s j0 hj
  refine ⟨hE, ?_⟩
  rw [hA]
  simp [hB]

theorem bounded_polling_witness :
    (processVideoGeneration wEnvNeverDone wSvc "job1" wSt).2.polls ≤ 120
    ∧ (mget (processVideoGeneration wEnvNeverDone wSvc "job1" wSt).1.jobs "job1").map Job.status
        = some "completed" :=
  bounded_polling wEnvNeverDone wSvc "job1" wSt (freshJob 0 "a cat" {}) (by decide)
    (fun n r h => by
      have h2 : ({ done := false } : OpResponse) = r := Except.ok.inj h
      rw [← h2])

/-! ## C3 -/

/-- C3 counterexample: a job completed through the fallback path whose
placeholder upload to GCS succeeded ends with `videoPath = null`
(the code sets `fallbackJob.videoPath = null`), refuting the claim that
every completed job's local artifact path field is populated. -/
theorem completed_null_videoPath_cex :
    (mget (processVideoGeneration cexEnvUpload wSvc "job1" wSt).1.jobs "job1").map
        (fun j => (j.status, j.videoPath)) = some ("completed", none) := by
  decide

/-- C3 (amended): every job present in the registry when a run ends is
completed with an artifact reference: its local `videoPath` or its
durable-storage `gcsFileName` is non-null (the local path is nulled exactly
when completion came via fallback and the placeholder upload succeeded). -/
theorem completed_has_artifact_reference (env : Env) (svc : ServiceConfig)
    (jobId : String) (s : St) (j0 : Job)
    (hj : mget s.jobs jobId = some j0) :
    (mget (processVideoGeneration env svc jobId s).1.jobs jobId).map
        (fun j => (j.status, j.videoPath.isSome || j.gcsFileName.isSome))
      = some ("completed", true) := by
  obtain ⟨jf, hA, hB, _, hD, _, _, _, _, _, _⟩ :=
    processVideoGeneration_spec env svc jobId s j0 hj
  rw [hA]
  rcases hD with h | h <;> simp [hB, h]

theorem completed_has_artifact_reference_witness :
    (mget (processVideoGeneration cexEnvUpload wSvc "job1" wSt).1.jobs "job1").map
        (fun j => (j.status, j.videoPath.isSome || j.gcsFileName.isSome))
      = some ("completed", true) :=
  completed_has_artifact_reference cexEnvUpload wSvc "job1" wSt (freshJob 0 "a cat" {})
    (by decide)

/-! ## C4 -/

/-- C4: for a freshly registered job, progress equals 100 exactly when the
status is `"completed"` — at the registered initial state, at every
observable (suspension) snapshot of the driving sequence, and at the final
registry state. -/
theorem progress_100_iff_completed (env : Env) (svc : ServiceConfig)
    (now : Int) (jobId prompt : String) (opts : GenOptions) (s : St)
    (hj : mget s.jobs jobId = some (freshJob now prompt opts)) :
    ((freshJob now prompt opts).progress = 100 ↔ (freshJob now prompt opts).status = "completed")
    ∧ (∀ e ∈ (processVideoGeneration env svc jobId s).2.trace, e.1 = true →
        (e.2.progress = 100 ↔ e.2.status = "completed"))
    ∧ (∀ jf, mget (processVideoGeneration env svc jobId s).1.jobs jobId = some jf →
        (jf.progress = 100 ↔ jf.status = "completed")) := by
  obtain ⟨jf, hA, hB, hC, _, _, _, _, hH, _, _⟩ :=
    processVideoGeneration_spec env svc jobId s _ hj
  refine ⟨iff_of_false (by simp [freshJob]) (by simp [freshJob]), hH, ?_⟩
  intro jf' hjf'
  rw [hA] at hjf'
  injection hjf' with h
  subst h
  exact iff_of_true hC hB

theorem progress_100_iff_completed_witness :
    ((freshJob 0 "a cat" {}).progress = 100 ↔ (freshJob 0 "a cat" {}).status = "completed")
    ∧ (∀ e ∈ (processVideoGeneration wEnvNeverDone wSvc "job1" wSt).2.trace, e.1 = true →
        (e.2.progress = 100 ↔ e.2.status = "completed"))
    ∧ (∀ jf, mget (processVideoGeneration wEnvNeverDone wSvc "job1" wSt).1.jobs "job1" = some jf →
        (jf.progress = 100 ↔ jf.status = "completed")) :=
  progress_100_iff_completed wEnvNeverDone wSvc 0 "job1" "a cat" {} wSt (by decide)

/-! ## C5 -/

/-- C5: starting from the freshly registered job (progress 0), the sequence
of progress values stored in the registry over the steps of the driving
sequence — the failure/fallback path included — is non-decreasing. -/
theorem progress_monotone (env : Env) (svc : ServiceConfig) (now : Int)
    (jobId prompt : String) (opts : GenOptions) (s : St)
    (hj : mget s.jobs jobId = some (freshJob now prompt opts)) :
    List.Pairwise (fun a b => a.2.progress ≤ b.2.progress)
      ((false, freshJob now prompt opts) :: (processVideoGeneration env svc jobId s).2.trace) := by
  obtain ⟨jf, _, _, _, _, _, _, _, _, hI, _⟩ :=
    processVideoGeneration_spec env svc jobId s _ hj
  refine List.Pairwise.cons ?_ hI
  intro b hb
  exact Nat.zero_le _

theorem progress_monotone_witness :
    List.Pairwise (fun a b => a.2.progress ≤ b.2.progress)
      ((false, freshJob 0 "a cat" {}) ::
        (processVideoGeneration wEnvFail wSvc "job1" wSt).2.trace) :=
  progress_monotone wEnvFail wSvc 0 "job1" "a cat" {} wSt (by decide)

/-! ## C6 -/

/-- C6 counterexample: after a successful `generateVideo` call the new
registry entry's status is `"processing"`, not `"queued"` — only the
payload returned to the caller says `"queued"`. -/
theorem submit_registers_processing_cex :
    (mget (generateVideo wSvc 0 "jobNew" "a dog" {} wSt).2.jobs "jobNew").map Job.status
      = some "processing" ∧ ("processing" : String) ≠ "queued" := by
  decide

/-- C6 (amended): with credentials configured, `generateVideo` enters the
job into the registry with status `"processing"` and progress 0 before the
identifier is returned, while the value returned to the caller reports
status `"queued"`. -/
theorem submit_registers_job (svc : ServiceConfig) (now : Int)
    (jobId prompt : String) (opts : GenOptions) (s : St)
    (hkey : strTruthy svc.keyFilePath = true) :
    (generateVideo svc now jobId prompt opts s).1 =
      Except.ok { status := "queued", jobId := jobId,
                  estimatedProcessingTime := getProcessingTime (opts.quality.getD "standard"),
                  videoPrompt := prompt }
    ∧ mget (generateVideo svc now jobId prompt opts s).2.jobs jobId
        = some (freshJob now prompt opts)
    ∧ (freshJob now prompt opts).status = "processing"
    ∧ (freshJob now prompt opts).progress = 0 := by
  have hres : generateVideo svc now jobId prompt opts s =
      (Except.ok { status := "queued", jobId := jobId,
                   estimatedProcessingTime := getProcessingTime (opts.quality.getD "standard"),
                   videoPrompt := prompt },
       { s with jobs := mset s.jobs jobId (freshJob now prompt opts) }) := by
    simp [generateVideo, hkey]
  rw [hres]
  exact ⟨rfl, mget_mset_self _ _ _, rfl, rfl⟩

theorem submit_registers_job_witness :
    (generateVideo wSvc 0 "jobNew" "a dog" {} wSt).1 =
      Except.ok { status := "queued", jobId := "jobNew",
                  estimatedProcessingTime := getProcessingTime (({} : GenOptions).quality.getD "standard"),
                  videoPrompt := "a dog" }
    ∧ mget (generateVideo wSvc 0 "jobNew" "a dog" {} wSt).2.jobs "jobNew"
        = some (freshJob 0 "a dog" {})
    ∧ (freshJob 0 "a dog" {}).status = "processing"
    ∧ (freshJob 0 "a dog" {}).progress = 0 :=
  submit_registers_job wSvc 0 "jobNew" "a dog" {} wSt (by decide)

/-! ## C7 -/

/-- C7 counterexample: `getVideoStatus` on a completed job with a recorded
GCS key and successful minting writes the fresh signed URL back into the
stored registry entry (`job.videoUrl = videoUrl`), so the call is not
read-only over the Job Registry. -/
theorem getVideoStatus_not_readonly_cex :
    (mget (getVideoStatus (fun _ => Except.ok "https://new.example/url") 0 "job1"
        cexStatusSt).2.jobs "job1").map Job.videoUrl
      = some (some "https://new.example/url")
    ∧ (some "https://new.example/url" : Option String) ≠ some "https://old.example/url" := by
  decide

/-- C7 (amended): `getVideoStatus` writes the freshly minted URL into the
stored entry's `videoUrl` field — leaving every other field unchanged —
exactly when the job is completed, has a truthy GCS key, and minting
succeeds; in every other case (no truthy key, job not completed, or
minting fails) the state, the job's registry entry included, is fully
unchanged. -/
theorem getVideoStatus_frame (sign : String → Except String String)
    (now : Int) (jobId : String) (s : St) (job : Job)
    (hj : mget s.jobs jobId = some job) :
    (job.status = "completed" → strTruthy job.gcsFileName = true →
        ∀ u, sign (job.gcsFileName.getD "") = .ok u →
          mget (getVideoStatus sign now jobId s).2.jobs jobId
            = some { job with videoUrl := some u })
    ∧ ((¬(job.status = "completed" ∧ strTruthy job.gcsFileName = true)
          ∨ (∃ e, sign (job.gcsFileName.getD "") = .error e)) →
        (getVideoStatus sign now jobId s).2 = s) := by
  by_cases hc : job.status = "completed" ∧ strTruthy job.gcsFileName = true
  · cases hs : sign (job.gcsFileName.getD "") with
    | ok url =>
      have hres : (getVideoStatus sign now jobId s).2 =
          { s with jobs := mset s.jobs jobId { job with videoUrl := some url } } := by
        simp [getVideoStatus, hj, hc, hs]
      constructor
      · intro _ _ u hu
        injection hu with hu1
        subst hu1
        rw [hres]
        exact mget_mset_self _ _ _
      · intro h
        rcases h with h | ⟨e, he⟩
        · exact absurd hc h
        · exact absurd he (by simp)
    | error e0 =>
      have hres : (getVideoStatus sign now jobId s).2 = s := by
        simp [getVideoStatus, hj, hc, hs]
      constructor
      · intro _ _ u hu
        exact absurd hu (by simp)
      · intro _
        exact hres
  · have hres : (getVideoStatus sign now jobId s).2 = s := by
      by_cases hv : strTruthy job.videoUrl = true
      · simp [getVideoStatus, hj, hc, hv]
      · simp [getVideoStatus, hj, hc, hv]
    constructor
    · intro h1 h2 u _
      exact absurd ⟨h1, h2⟩ hc
    · intro _
      exact hres

def wSign : String → Except String String := fun _ => .ok "https://new.example/url"

theorem getVideoStatus_frame_witness :
    (cexStatusJob.status = "completed" → strTruthy cexStatusJob.gcsFileName = true →
        ∀ u, wSign (cexStatusJob.gcsFileName.getD "") = Except.ok u →
          mget (getVideoStatus wSign 0 "job1" cexStatusSt).2.jobs "job1"
            = some { cexStatusJob with videoUrl := some u })
    ∧ ((¬(cexStatusJob.status = "completed" ∧ strTruthy cexStatusJob.gcsFileName = true)
          ∨ (∃ e, wSign (cexStatusJob.gcsFileName.getD "") = Except.error e)) →
        (getVideoStatus wSign 0 "job1" cexStatusSt).2 = cexStatusSt) :=
  getVideoStatus_frame wSign 0 "job1" cexStatusSt cexStatusJob (by decide)

/-! ## C8 -/

/-- C8 counterexample: on a completed job with a recorded storage key whose
signed-URL minting fails, `getVideoUrl` fails with a wrapped error instead
of succeeding with the locally stored path, refuting the claim's
"falls back to the local path when minting fails" part. -/
theorem getVideoUrl_mint_failure_cex :
    getVideoUrl (fun _ => Except.error "mint failed") "job1" cexUrlSt
      = Except.error "Failed to retrieve video: mint failed"
    ∧ cexUrlJob.videoPath = some (videoFilePath "job1") := by
  constructor
  · rfl
  · rfl

/-- C8 (amended): `getVideoUrl` fails with the wrapped NotFound error on an
unknown id and with the NotReady error on a non-completed job; with a
truthy storage key it returns the freshly minted signed URL when minting
succeeds but fails with a wrapped error when minting throws; only when no
truthy key is recorded does it return `videoPath || videoUrl`. -/
theorem getVideoUrl_spec (sign : String → Except String String)
    (jobId : String) (s : St) :
    (mget s.jobs jobId = none →
      getVideoUrl sign jobId s = .error "Failed to retrieve video: Job not found")
    ∧ (∀ job, mget s.jobs jobId = some job →
        (job.status ≠ "completed" →
          getVideoUrl sign jobId s = .error "Failed to retrieve video: Video not ready yet")
        ∧ (job.status = "completed" → strTruthy job.gcsFileName = true →
            (∀ u, sign (job.gcsFileName.getD "") = .ok u →
              getVideoUrl sign jobId s = .ok (some u))
            ∧ (∀ e, sign (job.gcsFileName.getD "") = .error e →
              getVideoUrl sign jobId s = .error ("Failed to retrieve video: " ++ e)))
        ∧ (job.status = "completed" → strTruthy job.gcsFileName = false →
            getVideoUrl sign jobId s = .ok (jsOr job.videoPath job.videoUrl))) := by
  constructor
  · intro h
    simp [getVideoUrl, h]
  · intro job hj
    refine ⟨?_, ?_, ?_⟩
    · intro hns
      simp [getVideoUrl, hj, hns]
    · intro hsc hg
      constructor
      · intro u hu
        simp [getVideoUrl, hj, hsc, hg, hu]
      · intro e he
        simp [getVideoUrl, hj, hsc, hg, he]
    · intro hsc hg
      simp [getVideoUrl, hj, hsc, hg]

theorem getVideoUrl_spec_witness :
    getVideoUrl (fun _ => Except.error "mint failed") "missing" cexUrlSt
      = Except.error "Failed to retrieve video: Job not found" :=
  (getVideoUrl_spec (fun _ => Except.error "mint failed") "missing" cexUrlSt).1 (by decide)

/-! ## C9 -/

/-- C9: when provider credentials are absent, `generateVideo` fails
synchronously with the configuration error and returns the state unchanged,
so no job is entered into the registry. -/
theorem config_missing_no_registration (svc : ServiceConfig) (now : Int)
    (jobId prompt : String) (opts : GenOptions) (s : St)
    (hkey : strTruthy svc.keyFilePath = false) :
    generateVideo svc now jobId prompt opts s =
      (.error "Video generation failed: Google Service Account Key not configured. Check GOOGLE_APPLICATION_CREDENTIALS in .env", s) := by
  simp [generateVideo, hkey]

theorem config_missing_no_registration_witness :
    generateVideo { keyFilePath := none } 0 "jobX" "a fox" {} wSt =
      (.error "Video generation failed: Google Service Account Key not configured. Check GOOGLE_APPLICATION_CREDENTIALS in .env", wSt) :=
  config_missing_no_registration { keyFilePath := none } 0 "jobX" "a fox" {} wSt (by decide)

/-! ## C10 -/

/-- C10 counterexample: the quality `"constructor"` is outside
fast/standard/high, yet `times["constructor"]` resolves through the
prototype chain to the truthy `Object.prototype.constructor`, so
`|| 60` short-circuits: `getProcessingTime` does not yield 60 seconds and
`generateVideo` returns the inherited value as the estimate. -/
theorem unknown_quality_not_60_cex :
    getProcessingTime "constructor" = ProcessingTime.inherited "constructor"
    ∧ getProcessingTime "constructor" ≠ ProcessingTime.seconds 60
    ∧ ((generateVideo wSvc 0 "jobC" "p" { quality := some "constructor" } wSt).1.toOption).map
        SubmitResult.estimatedProcessingTime = some (ProcessingTime.inherited "constructor") := by
  decide

/-- C10 (amended): a requested quality outside fast/standard/high that is
also not a property name inherited from `Object.prototype` — absence
included — yields the standard 60-second total estimate, both in
`generateVideo`'s returned `estimatedProcessingTime` and in the total that
`getVideoStatus` uses for `estimatedTimeRemaining` (evaluated at
`now = startTime`); a prototype-chain key instead hits the inherited
truthy value, so the estimate is not 60 there. -/
theorem unknown_quality_uses_60 (q : String)
    (h1 : q ≠ "fast") (h2 : q ≠ "standard") (h3 : q ≠ "high")
    (h4 : q ∉ objectPrototypeKeys)
    (qopt : Option String) (hq : qopt = some q ∨ qopt = none)
    (svc : ServiceConfig) (now : Int) (jobId prompt : String)
    (opts : GenOptions) (s : St)
    (hkey : strTruthy svc.keyFilePath = true) (hoq : opts.quality = qopt)
    (sign : String → Except String String) (s2 : St) (jobId2 : String) (job : Job)
    (hj : mget s2.jobs jobId2 = some job) (hjq : job.options.quality = qopt) :
    getProcessingTime (qopt.getD "standard") = ProcessingTime.seconds 60
    ∧ ((generateVideo svc now jobId prompt opts s).1.toOption).map
        SubmitResult.estimatedProcessingTime = some (ProcessingTime.seconds 60)
    ∧ ((getVideoStatus sign job.startTime jobId2 s2).1.toOption).map
        StatusData.estimatedTimeRemaining = some (some 60) := by
  have hgpt : getProcessingTime (qopt.getD "standard") = ProcessingTime.seconds 60 := by
    rcases hq with rfl | rfl
    · simp only [Option.getD]
      unfold getProcessingTime
      rw [if_neg h1, if_neg h2, if_neg h3, if_neg h4]
    · simp [getProcessingTime]
  have htot : getProcessingTime ((jsOr qopt (some "standard")).getD "standard")
      = ProcessingTime.seconds 60 := by
    rcases hq with rfl | rfl
    · by_cases hqe : strTruthy (some q) = true
      · rw [show jsOr (some q) (some "standard") = some q from by simp [jsOr, hqe]]
        exact hgpt
      · rw [show jsOr (some q) (some "standard") = some "standard" from by simp [jsOr, hqe]]
        simp [getProcessingTime]
    · simp [jsOr, strTruthy, getProcessingTime]
  have hgp : getProcessingTime ((jsOr job.options.quality (some "standard")).getD "standard")
      = ProcessingTime.seconds 60 := by
    rw [hjq]
    exact htot
  refine ⟨hgpt, ?_, ?_⟩
  · simp [generateVideo, hkey, hoq, hgpt]
    exact ⟨_, rfl, rfl⟩
  · by_cases hc : job.status = "completed" ∧ strTruthy job.gcsFileName = true
    · cases hs : sign (job.gcsFileName.getD "") with
      | ok url =>
        simp [getVideoStatus, hj, hc, hs, hgp]
        exact ⟨_, rfl, rfl⟩
      | error e =>
        simp [getVideoStatus, hj, hc, hs, hgp]
        exact ⟨_, rfl, rfl⟩
    · by_cases hv : strTruthy job.videoUrl = true
      · simp [getVideoStatus, hj, hc, hv, hgp]
        exact ⟨_, rfl, rfl⟩
      · simp [getVideoStatus, hj, hc, hv, hgp]
        exact ⟨_, rfl, rfl⟩

def wQualJob : Job := freshJob 0 "a cat" { quality := some "ultra" }

def wQualSt : St := { jobs := [("jobQ", wQualJob)], fs := [] }

theorem unknown_quality_uses_60_witness :
    getProcessingTime ((some "ultra").getD "standard") = ProcessingTime.seconds 60
    ∧ ((generateVideo wSvc 0 "jobQ" "a cat" { quality := some "ultra" } wSt).1.toOption).map
        SubmitResult.estimatedProcessingTime = some (ProcessingTime.seconds 60)
    ∧ ((getVideoStatus (fun _ => Except.error "no gcs") wQualJob.startTime "jobQ"
        wQualSt).1.toOption).map StatusData.estimatedTimeRemaining = some (some 60) :=
  unknown_quality_uses_60 "ultra" (by decide) (by decide) (by decide) (by decide)
    (some "ultra") (Or.inl rfl) wSvc 0 "jobQ" "a cat" { quality := some "ultra" } wSt
    (by decide) rfl (fun _ => Except.error "no gcs") wQualSt "jobQ" wQualJob
    (by decide) rfl

end VeoFlow
